import Mathlib

/-!
Verification of the breeze multi-protocol client core.

This file shallowly embeds the parts of the breeze source that the checked
properties concern: the protocol registry and request builder
(src/main.rs, Breeze::navigate), the default-port table and the UDP
reassembly loop (src/networking.rs, fetch / fetch_udp), the status-line
decoders and response splitter (src/networking.rs), the history stack
(src/history.rs), the gemtext line parser (src/handlers/gemtext.rs), the
Scorpion binary block parser (src/handlers/scorpion.rs), and the redirect
arm of the navigation state machine (src/main.rs, Breeze::update).

Modelling conventions:
- Rust strings are `List Char`; Rust byte buffers are `List Nat` with each
  element below 256.  All inputs exercised by the theorems are ASCII, where
  the byte/char distinction is immaterial; `String::from_utf8_lossy` is
  modelled as the identity at the char level (byte-to-char for Scorpion).
- Fallible or panicking Rust code becomes `Option`: `none` models a panic
  (`unwrap`, `unreachable!`, out-of-range slice index) or, for the UDP loop,
  blocking forever on a socket that never delivers another datagram.
- `char::is_whitespace` is modelled by `Char.isWhitespace` (the ASCII
  whitespace subset, which covers every input considered here).
-/

/-- Convert a Lean string literal to the `List Char` representation used for
Rust strings throughout this file. -/
def cs (s : String) : List Char := s.data

/-- Model of Rust `str::split_once(pat)`: split at the first character
satisfying `p`, dropping that character; `none` when no character matches. -/
def splitOnce (p : Char → Bool) : List Char → Option (List Char × List Char)
  | [] => none
  | c :: rest =>
    if p c then some ([], rest)
    else (splitOnce p rest).map (fun ab => (c :: ab.1, ab.2))

/-- Model of Rust `str::trim` (restricted to ASCII whitespace): drop leading
and trailing whitespace characters. -/
def rustTrim (s : List Char) : List Char :=
  ((s.dropWhile Char.isWhitespace).reverse.dropWhile Char.isWhitespace).reverse

/-- Drop a single trailing carriage return, as Rust line splitting does for
lines terminated by CRLF. -/
def stripTrailingCR (l : List Char) : List Char :=
  match l.getLast? with
  | some c => if c = '\r' then l.dropLast else l
  | none => l

/-- Worker for `rustLines`: `cur` holds the characters of the current line in
reverse order. -/
def rustLinesGo (cur : List Char) : List Char → List (List Char)
  | [] => if cur = [] then [] else [cur.reverse]
  | c :: rest =>
    if c = '\n' then stripTrailingCR cur.reverse :: rustLinesGo [] rest
    else rustLinesGo (c :: cur) rest

/-- Model of Rust `str::lines` / `BufRead::lines`: split on LF, strip a
carriage return standing right before each LF, and emit a final unterminated
segment only when it is nonempty. -/
def rustLines (s : List Char) : List (List Char) := rustLinesGo [] s

/-- Model of Rust `str::split(' ')`: always yields at least one (possibly
empty) segment. -/
def splitSpace : List Char → List (List Char)
  | [] => [[]]
  | c :: rest =>
    if c = ' ' then [] :: splitSpace rest
    else
      match splitSpace rest with
      | g :: gs => (c :: g) :: gs
      | [] => [[c]]

/-! ## Protocol registry (src/handlers/mod.rs, src/networking.rs) -/

/-- Protocol identifiers, from `enum Protocol` in src/handlers/mod.rs.
`gopher` carries the TLS flag. -/
inductive Protocol where
  | finger
  | gopher (secure : Bool)
  | gemini
  | guppy
  | nex
  | plaintext
  | scorpion
  | scroll
  | spartan
  | textProtocol
  | unknown
deriving DecidableEq

/-- Scheme-to-protocol classification, from `Protocol::from_str` in
src/handlers/mod.rs (the argument here is already the part of the string
before the first colon). -/
def protocolFromScheme (s : List Char) : Protocol :=
  if s = cs ("finger") then .finger
  else if s = cs ("gemini") then .gemini
  else if s = cs ("gopher") then .gopher false
  else if s = cs ("gophers") then .gopher true
  else if s = cs ("guppy") then .guppy
  else if s = cs ("nex") then .nex
  else if s = cs ("scorpion") then .scorpion
  else if s = cs ("scroll") then .scroll
  else if s = cs ("spartan") then .spartan
  else if s = cs ("text") then .textProtocol
  else .unknown

/-- Default port table, from the `url.port().unwrap_or(match protocol ...)`
expression in `fetch` (src/networking.rs lines 227-238). -/
def defaultPort : Protocol → Nat
  | .finger => 79
  | .gemini => 1965
  | .gopher _ => 70
  | .guppy => 6775
  | .nex => 1900
  | .scorpion => 1517
  | .scroll => 5699
  | .spartan => 300
  | .textProtocol => 1961
  | _ => 0

/-- Parsed URL components, modelling the fields of `url::Url` that the
request builder reads (scheme, host, optional port, path, optional query). -/
structure Url where
  scheme : List Char
  host : List Char
  port : Option Nat
  path : List Char
  query : Option (List Char)
deriving DecidableEq

/-- Decimal rendering of a natural number, for port numbers and the Spartan
query length. -/
def natChars (n : Nat) : List Char := (toString n).data

/-- Serialisation of a `Url` back to its string form, modelling
`url::Url::to_string` on the components above. -/
def urlString (u : Url) : List Char :=
  u.scheme ++ cs ("://") ++ u.host
    ++ (match u.port with
        | none => []
        | some p => ':' :: natChars p)
    ++ u.path
    ++ (match u.query with
        | none => []
        | some q => '?' :: q)

/-- Path normalisation in `Breeze::navigate` (src/main.rs lines 236-239): an
empty path becomes "/". -/
def navPath (u : Url) : List Char :=
  if u.path = [] then cs ("/") else u.path

/-- Request body and secure flag, from the `match protocol` expression in
`Breeze::navigate` (src/main.rs lines 247-265).  `none` models the
`unreachable!` arm (plaintext/unknown protocols, which navigation filters out
before reaching this match). -/
def buildRequest (u : Url) (p : Protocol) : Option (List Char × Bool) :=
  let path := navPath u
  match p with
  | .finger =>
    -- path.strip_prefix("/").unwrap_or(&path)
    some ((match path with
           | '/' :: rest => rest
           | other => other), false)
  | .gemini => some (urlString u, true)
  | .gopher ssl =>
    some (path ++ (match u.query with
                   | some q => '\t' :: q
                   | none => []), ssl)
  | .guppy => some (urlString u, false)
  | .nex => some (path, false)
  | .scorpion => some ('R' :: ' ' :: urlString u, false)
  | .scroll => some (urlString u ++ cs (" en"), true)
  | .spartan =>
    let queryPart := match u.query with
      | some q => natChars q.length ++ '\n' :: q
      | none => cs ("0")
    some (u.host ++ ' ' :: path ++ ' ' :: queryPart, false)
  | .textProtocol => some (urlString u, false)
  | _ => none

/-- Port selection in `fetch` (src/networking.rs line 227): the explicit URL
port when present, otherwise the protocol default. -/
def effectivePort (u : Url) (p : Protocol) : Nat :=
  match u.port with
  | some n => n
  | none => defaultPort p

/-- Modelled from the spec: the request-body/secure table of section 4.1,
written independently of `buildRequest` for the refinement comparison.  For
Spartan the table gives host, path and query length in the request line, with
the literal query bytes following on the wire; the code separates them with a
single LF inside the request body, which is how the followed-on-the-wire
suffix is represented here. -/
def specRequestTable (u : Url) (p : Protocol) : Option (List Char × Bool) :=
  match p with
  | .finger =>
    -- path with leading slash stripped
    some ((match navPath u with
           | '/' :: rest => rest
           | other => other), false)
  | .gemini =>
    -- full absolute URL, secure
    some (urlString u, true)
  | .gopher secure =>
    -- path, optionally suffixed with tab + query; secure = flag
    some (navPath u ++ (match u.query with
                        | some q => '\t' :: q
                        | none => []), secure)
  | .guppy =>
    -- full absolute URL, not secure (UDP)
    some (urlString u, false)
  | .nex =>
    -- path only
    some (navPath u, false)
  | .scorpion =>
    -- "R " + full URL
    some (cs ("R ") ++ urlString u, false)
  | .scroll =>
    -- full URL + " " + language tag
    some (urlString u ++ cs (" ") ++ cs ("en"), true)
  | .spartan =>
    -- host + " " + path + " " + query-length, then the query bytes
    some (u.host ++ cs (" ") ++ navPath u ++ cs (" ")
            ++ (match u.query with
                | some q => natChars q.length ++ cs ("\n") ++ q
                | none => cs ("0")), false)
  | .textProtocol =>
    -- full absolute URL
    some (urlString u, false)
  | _ => none

/-! ## History stack (src/history.rs) -/

/-- History entry, from `struct HistoryEntry` in src/history.rs. -/
structure HistoryEntry where
  url : Url
  protocol : Protocol
deriving DecidableEq

/-- The shared history state: the entry vector (`HISTORY`) and the cursor
(`HISTORY_INDEX`), taken together as one unit. -/
structure HistoryState where
  entries : List HistoryEntry
  index : Nat
deriving DecidableEq

/-- Forward-history truncation performed at the start of `add_entry`
(src/history.rs lines 26-29): when the cursor is not at the tail, keep only
the entries up to and including the cursor. -/
def truncEntries (s : HistoryState) : List HistoryEntry :=
  if s.index + 1 < s.entries.length then s.entries.take (s.index + 1)
  else s.entries

/-- Model of `add_entry` (src/history.rs lines 22-36): truncate forward
history, then append the new entry unless it equals the current tail, moving
the cursor to the new tail on append. -/
def addEntry (s : HistoryState) (url : Url) (protocol : Protocol) : HistoryState :=
  match (truncEntries s).getLast? with
  | some e =>
    if e.url = url then
      { entries := truncEntries s, index := s.index }
    else
      -- history.push(..); *index = history.len() - 1
      { entries := truncEntries s ++ [⟨url, protocol⟩], index := (truncEntries s).length }
  | none =>
    { entries := [⟨url, protocol⟩], index := 0 }

/-- Model of `remove_latest_entry` (src/history.rs lines 45-48):
`history.pop().unwrap()`, leaving the cursor untouched; `none` models the
panic on an empty history. -/
def removeLatestEntry (s : HistoryState) : Option (HistoryState × HistoryEntry) :=
  match s.entries.getLast? with
  | none => none
  | some e => some ({ entries := s.entries.dropLast, index := s.index }, e)

/-- Model of `back` (src/history.rs lines 50-59). -/
def histBack (s : HistoryState) : HistoryState × Option HistoryEntry :=
  if 0 < s.index then
    ({ entries := s.entries, index := s.index - 1 }, s.entries.get? (s.index - 1))
  else
    (s, none)

/-- Model of `forward` (src/history.rs lines 61-70). -/
def histForward (s : HistoryState) : HistoryState × Option HistoryEntry :=
  if s.index + 1 < s.entries.length then
    ({ entries := s.entries, index := s.index + 1 }, s.entries.get? (s.index + 1))
  else
    (s, none)

/-- The cursor invariant stated in the spec data model: whenever the history
is nonempty, the cursor is a valid position. -/
def histInv (s : HistoryState) : Prop :=
  0 < s.entries.length → s.index < s.entries.length

instance (s : HistoryState) : Decidable (histInv s) := by
  unfold histInv; infer_instance

/-! ## Status-line decoders (src/networking.rs) -/

/-- Gemini/Scroll status taxonomy, from `enum GeminiStatus` in
src/networking.rs. -/
inductive GeminiStatus where
  | inputExpected (prompt : List Char) (sensitive : Bool)
  | success (meta : List Char)
  | temporaryRedirect (target : List Char)
  | permanentRedirect (target : List Char)
  | temporaryFailure (data : List Char)
  | serverUnavailable (data : List Char)
  | cgiError (data : List Char)
  | proxyError (data : List Char)
  | slowDown (data : List Char)
  | permanentFailure (data : List Char)
  | notFound (data : List Char)
  | gone (data : List Char)
  | proxyRequestRefused (data : List Char)
  | badRequest (data : List Char)
  | requiresClientCertificate
  | certificateNotAuthorized
  | certificateNotValid
deriving DecidableEq

/-- Model of `GeminiStatus::from` (src/networking.rs lines 60-89).  `none`
models the panics: `split_once(' ').unwrap()` when the line has no space, and
the `unreachable!` arm for a code outside the defined set. -/
def geminiStatusFrom (status : List Char) : Option GeminiStatus :=
  match splitOnce (fun c => c = ' ') status with
  | none => none
  | some (code, data) =>
    match code with
    | ['1', '0'] => some (.inputExpected data false)
    | ['1', '1'] => some (.inputExpected data true)
    | ['2', '0'] | ['2', '1'] | ['2', '2'] | ['2', '3'] | ['2', '4']
    | ['2', '5'] | ['2', '6'] | ['2', '7'] | ['2', '8'] | ['2', '9'] =>
      some (.success data)
    | ['3', '0'] => some (.temporaryRedirect data)
    | ['3', '1'] => some (.permanentRedirect data)
    | ['4', '0'] => some (.temporaryFailure data)
    | ['4', '1'] => some (.serverUnavailable data)
    | ['4', '2'] => some (.cgiError data)
    | ['4', '3'] => some (.proxyError data)
    | ['4', '4'] => some (.slowDown data)
    | ['5', '0'] => some (.permanentFailure data)
    | ['5', '1'] => some (.notFound data)
    | ['5', '2'] => some (.gone data)
    | ['5', '3'] => some (.proxyRequestRefused data)
    | ['5', '9'] => some (.badRequest data)
    | ['6', '0'] => some .requiresClientCertificate
    | ['6', '1'] => some .certificateNotAuthorized
    | ['6', '2'] => some .certificateNotValid
    | _ => none

/-- Spartan status taxonomy, from `enum SpartanStatus` in src/networking.rs. -/
inductive SpartanStatus where
  | success (data : List Char)
  | redirect (data : List Char)
  | clientError (data : List Char)
  | serverError (data : List Char)
deriving DecidableEq

/-- Model of `SpartanStatus::from` (src/networking.rs lines 99-110). -/
def spartanStatusFrom (status : List Char) : Option SpartanStatus :=
  match splitOnce (fun c => c = ' ') status with
  | none => none
  | some (code, data) =>
    match code with
    | ['2'] => some (.success data)
    | ['3'] => some (.redirect data)
    | ['4'] => some (.clientError data)
    | ['5'] => some (.serverError data)
    | _ => none

/-- Scorpion status taxonomy, from `enum ScorpionStatus` in
src/networking.rs. -/
inductive ScorpionStatus where
  | interactive
  | inputRequired
  | ok
  | partialOK
  | temporaryRedirect (target : List Char)
  | permanentRedirect (target : List Char)
  | temporaryError
  | downForMaintenance
  | dynamicFileError
  | proxyError
  | slowDown
  | temporarilyLockedFile
  | permanentError (data : List Char)
  | fileNotFound (data : List Char)
  | fileRemoved (data : List Char)
  | proxyRequestRefused
  | forbidden
  | editConflict
  | credentialsRequired
  | badRequest
  | requiresClientCertificate
  | certificateNotAuthorized
  | certificateNotValid
  | readyNewFile
  | readyModifyFile
  | readyOther
  | acceptedNewFile
  | acceptedFileModified
  | acceptedOther
deriving DecidableEq

/-- Model of `ScorpionStatus::from` (src/networking.rs lines 145-183). -/
def scorpionStatusFrom (status : List Char) : Option ScorpionStatus :=
  match splitOnce (fun c => c = ' ') status with
  | none => none
  | some (code, data) =>
    match code with
    | ['0', '0'] => some .interactive
    | ['1', '0'] => some .inputRequired
    | ['2', '0'] => some .ok
    | ['2', '1'] => some .partialOK
    | ['3', '0'] => some (.temporaryRedirect data)
    | ['3', '1'] => some (.permanentRedirect data)
    | ['4', '0'] => some .temporaryError
    | ['4', '1'] => some .downForMaintenance
    | ['4', '2'] => some .dynamicFileError
    | ['4', '3'] => some .proxyError
    | ['4', '4'] => some .slowDown
    | ['4', '5'] => some .temporarilyLockedFile
    | ['5', '0'] => some (.permanentError data)
    | ['5', '1'] => some (.fileNotFound data)
    | ['5', '2'] => some (.fileRemoved data)
    | ['5', '3'] => some .proxyRequestRefused
    | ['5', '4'] => some .forbidden
    | ['5', '5'] => some .editConflict
    | ['5', '6'] => some .credentialsRequired
    | ['5', '9'] => some .badRequest
    | ['6', '0'] => some .requiresClientCertificate
    | ['6', '1'] => some .certificateNotAuthorized
    | ['6', '2'] => some .certificateNotValid
    | ['7', '0'] => some .readyNewFile
    | ['7', '1'] => some .readyModifyFile
    | ['7', '2'] => some .readyOther
    | ['8', '0'] => some .acceptedNewFile
    | ['8', '1'] => some .acceptedFileModified
    | ['8', '2'] => some .acceptedOther
    | _ => none

/-- Text Protocol status taxonomy, from `enum TextProtocolStatus` in
src/networking.rs. -/
inductive TextProtocolStatus where
  | ok (data : List Char)
  | redirect (data : List Char)
  | nok (data : List Char)
deriving DecidableEq

/-- Model of `TextProtocolStatus::from` (src/networking.rs lines 193-203). -/
def textProtocolStatusFrom (status : List Char) : Option TextProtocolStatus :=
  match splitOnce (fun c => c = ' ') status with
  | none => none
  | some (code, data) =>
    match code with
    | ['2', '0'] => some (.ok data)
    | ['3', '0'] => some (.redirect data)
    | ['4', '0'] => some (.nok data)
    | _ => none

/-- Combined status type, from `enum ServerStatus` in src/networking.rs. -/
inductive ServerStatus where
  | gemini (s : GeminiStatus)
  | scorpion (s : ScorpionStatus)
  | spartan (s : SpartanStatus)
  | textProtocol (s : TextProtocolStatus)
  | plainSuccess (contentType : List Char)
deriving DecidableEq

/-- Model of `struct ServerResponse` in src/networking.rs. -/
structure ServerResponseM where
  content : List Char
  status : ServerStatus
deriving DecidableEq

/-- Model of `parse_server_response` (src/networking.rs lines 332-386): split
the response at the first newline into status line and body, decode the
status line per protocol.  `none` models the panics (`split_once.unwrap` when
there is no newline, and the status decoder panics). -/
def parseServerResponse (response : List Char) (protocol : Protocol) : Option ServerResponseM :=
  match protocol with
  | .gemini | .scroll =>
    match splitOnce (fun c => c = '\n') response with
    | none => none
    | some (statusLine, content) =>
      (geminiStatusFrom statusLine).map (fun st => ⟨content, .gemini st⟩)
  | .guppy =>
    match splitOnce (fun c => c = '\n') response with
    | none => none
    | some (contentType, content) => some ⟨content, .plainSuccess contentType⟩
  | .textProtocol =>
    match splitOnce (fun c => c = '\n') response with
    | none => none
    | some (statusLine, content) =>
      (textProtocolStatusFrom statusLine).map (fun st => ⟨content, .textProtocol st⟩)
  | .scorpion =>
    match splitOnce (fun c => c = '\n') response with
    | none => none
    | some (statusLine, content) =>
      (scorpionStatusFrom statusLine).map (fun st => ⟨content, .scorpion st⟩)
  | .spartan =>
    match splitOnce (fun c => c = '\n') response with
    | none => none
    | some (statusLine, content) =>
      (spartanStatusFrom statusLine).map (fun st => ⟨content, .spartan st⟩)
  | _ => some ⟨response, .plainSuccess (cs ("text/plain"))⟩

/-! ## Gemtext parser (src/handlers/gemtext.rs) -/

/-- Gemtext line categories, from `enum LineType` in
src/handlers/gemtext.rs. -/
inductive LineType where
  | text
  | link
  | heading1
  | heading2
  | heading3
  | list
  | quote
  | preformatToggle
  | prompt
deriving DecidableEq

/-- Model of `LineType::from_str` (src/handlers/gemtext.rs lines 25-45),
checking the prefixes in the same order as the code. -/
def lineTypeFromStr (s : List Char) : LineType :=
  if (cs ("=>")).isPrefixOf s then .link
  else if (cs ("###")).isPrefixOf s then .heading3
  else if (cs ("##")).isPrefixOf s then .heading2
  else if (cs ("#")).isPrefixOf s then .heading1
  else if (cs (">")).isPrefixOf s then .quote
  else if (cs ("```")).isPrefixOf s then .preformatToggle
  else if (cs ("*")).isPrefixOf s then .list
  else if (cs ("=:")).isPrefixOf s then .prompt
  else .text

/-- Parsed gemtext line, from `struct GemtextLine` (the transient
`prompt_string` UI cell is omitted). -/
structure GemtextRec where
  lineType : LineType
  content : List Char
  path : Option (List Char)
  preformatted : Bool
deriving DecidableEq

/-- Target/label split shared by the Link and Prompt arms of
`GemtextLine::from_str`: trim the text after the two-character prefix, split
at the first whitespace character into target and label, falling back to the
target as the label. -/
def linkParse (s : List Char) : List Char × Option (List Char) :=
  let content := rustTrim (s.drop 2)
  match splitOnce Char.isWhitespace content with
  | some (path, display) => (rustTrim display, some path)
  | none => (content, some content)

/-- Model of `GemtextLine::from_str` (src/handlers/gemtext.rs lines 56-108).
Returns the parsed record together with the updated preformat flag (the
mutation of `gemtext.preformat_line`). -/
def gemtextFromStr (s : List Char) (plaintext : Bool) (preformat : Bool) :
    GemtextRec × Bool :=
  if plaintext = true ∨ s = [] then
    ({ lineType := .text, content := s, path := none, preformatted := preformat },
     preformat)
  else
    let lt := lineTypeFromStr s
    let pf := if lt = .preformatToggle then !preformat else preformat
    let cp : List Char × Option (List Char) :=
      if pf = true ∧ lt ≠ .preformatToggle then (s, none)
      else
        match lt with
        | .link => linkParse s
        | .text => (s, none)
        | .preformatToggle => ([], none)
        | .prompt => linkParse s
        | _ => (s, none)
    ({ lineType := lt, content := cp.1, path := cp.2, preformatted := pf }, pf)

/-- Model of the non-plaintext line loop of `Gemtext::parse_content`
(src/handlers/gemtext.rs lines 127-137): drop "." end-of-body lines, parse
the rest threading the preformat flag.  Returns the records and the final
flag. -/
def gemtextLinesGo : List (List Char) → Bool → List GemtextRec × Bool
  | [], pf => ([], pf)
  | l :: ls, pf =>
    if l = cs (".") then gemtextLinesGo ls pf
    else
      let rp := gemtextFromStr l false pf
      let rest := gemtextLinesGo ls rp.2
      (rp.1 :: rest.1, rest.2)

/-- Model of `Gemtext::parse_content` (src/handlers/gemtext.rs lines
118-138) on the split lines of the body: the preformat flag is reset, then
in plaintext mode the filtered lines are rejoined into one text record,
otherwise each line is parsed in sequence. -/
def gemtextParseContent (body : List Char) (plaintext : Bool) : List GemtextRec :=
  if plaintext = true then
    let ls := (rustLines body).filter (fun l => l ≠ cs ("."))
    [(gemtextFromStr (List.intercalate (cs ("\n")) ls) true false).1]
  else
    (gemtextLinesGo (rustLines body) false).1

/-! ## Scorpion block parser (src/handlers/scorpion.rs) -/

/-- Scorpion block categories, from `enum BlockType` in
src/handlers/scorpion.rs. -/
inductive BlockType where
  | paragraph
  | heading1
  | heading2
  | heading3
  | heading4
  | heading5
  | heading6
  | hyperlink
  | hyperlinkInput
  | hyperlinkInteractive
  | alternateService
  | blockquote
  | preformatted
  | metadata
deriving DecidableEq

/-- Model of `BlockType::from` (src/handlers/scorpion.rs lines 28-48):
unrecognised type nibbles default to paragraph. -/
def blockTypeFrom (v : Nat) : BlockType :=
  match v with
  | 0x00 => .paragraph
  | 0x01 => .heading1
  | 0x02 => .heading2
  | 0x03 => .heading3
  | 0x04 => .heading4
  | 0x05 => .heading5
  | 0x06 => .heading6
  | 0x08 => .hyperlink
  | 0x09 => .hyperlinkInput
  | 0x0A => .hyperlinkInteractive
  | 0x0B => .alternateService
  | 0x0C => .blockquote
  | 0x0D => .preformatted
  | 0x0F => .metadata
  | _ => .paragraph

/-- Scorpion character encodings, from `enum CharacterEncoding` in
src/handlers/scorpion.rs. -/
inductive CharacterEncoding where
  | tron8
  | pc
  | iso2022
  | tron8rtl
  | iso2022rtl
deriving DecidableEq

/-- Model of `CharacterEncoding::from` (src/handlers/scorpion.rs lines
59-69). -/
def charEncodingFrom (v : Nat) : CharacterEncoding :=
  match v with
  | 0x00 => .tron8
  | 0x10 => .pc
  | 0x20 => .iso2022
  | 0x80 => .tron8rtl
  | 0xA0 => .iso2022rtl
  | _ => .tron8

/-- Parsed Scorpion block, from `struct Block` in src/handlers/scorpion.rs. -/
structure ScorpionBlock where
  blockType : BlockType
  attributeData : List Char
  bodyData : List Char
  plaintext : Bool
deriving DecidableEq

/-- ASCII-level model of `String::from_utf8_lossy` on a byte vector: bytes
below 128 decode to themselves, anything else to the replacement
character.  Every input the theorems use is ASCII. -/
def lossyChars (bs : List Nat) : List Char :=
  bs.map (fun b => if b < 128 then Char.ofNat b else Char.ofNat 0xFFFD)

/-- Model of `Scorpion::parse_body_data` (src/handlers/scorpion.rs lines
86-151), parameterised by the two decode tables of the external
codepage_437 crate (`CP437_CONTROL.decode` and `CP437_WINGDINGS.decode`).
`none` models the index panic when a 0x10 escape in PC encoding is the last
byte; the `- 0x40` is modelled with wrapping byte arithmetic. -/
def parseBodyData (cpControl cpWing : Nat → Char) (enc : CharacterEncoding) :
    List Nat → Option (List Char)
  | [] => some []
  | b :: rest =>
    if b = 0x02 ∨ b = 0x05 ∨ b = 0x06 ∨ b = 0x07 ∨ b = 0x09 ∨ b = 0x0A then
      parseBodyData cpControl cpWing enc rest
    else if b = 0x10 then
      if enc = .pc then
        match rest with
        | [] => none
        | b2 :: rest2 =>
          (parseBodyData cpControl cpWing enc rest2).map
            (fun l => cpWing ((b2 + 256 - 0x40) % 256) :: l)
      else
        parseBodyData cpControl cpWing enc rest
    else if b = 0x11 ∨ b = 0x12 ∨ b = 0x13 ∨ b = 0x14 ∨ b = 0x15 ∨ b = 0x16
        ∨ b = 0x17 ∨ b = 0x18 ∨ b = 0x19 ∨ b = 0x1B ∨ b = 0x8E ∨ b = 0x8F then
      parseBodyData cpControl cpWing enc rest
    else
      if enc = .pc then
        (parseBodyData cpControl cpWing enc rest).map (fun l => cpControl b :: l)
      else
        (parseBodyData cpControl cpWing enc rest).map (fun l => Char.ofNat b :: l)

/-- Block-stream loop of `Scorpion::parse_content` (src/handlers/scorpion.rs
lines 166-195), with explicit fuel (each iteration consumes at least six
bytes, so fuel equal to the input length always suffices; fuel exhaustion on
a stream still satisfying the loop guard yields `none`, which the top-level
entry point never reaches).  The loop guard `offset + 6 < response.len()`
becomes a check that more than six bytes remain.  `none` models the panics
from out-of-range slices when a declared attribute or body length runs past
the end of the input. -/
def scorpGo (cpControl cpWing : Nat → Char) : Nat → List Nat → Option (List ScorpionBlock)
  | 0, rest => if rest.length < 7 then some [] else none
  | fuel + 1, rest =>
    if rest.length < 7 then some []
    else
      match rest with
      | b0 :: b1 :: b2 :: rest3 =>
        -- attribute_length = (response[offset] as u16) << 8 | response[offset + 1]
        let attrLen := b1 * 256 + b2
        if rest3.length < attrLen then none
        else
          let attrData := rest3.take attrLen
          match rest3.drop attrLen with
          | c0 :: c1 :: c2 :: rest5 =>
            -- body_length, 3 bytes big-endian
            let bodyLen := c0 * 65536 + c1 * 256 + c2
            if rest5.length < bodyLen then none
            else
              match parseBodyData cpControl cpWing
                  (charEncodingFrom (b0 / 16 * 16)) (rest5.take bodyLen) with
              | none => none
              | some body =>
                match scorpGo cpControl cpWing fuel (rest5.drop bodyLen) with
                | none => none
                | some blocks =>
                  some ({ blockType := blockTypeFrom (b0 % 16),
                          attributeData := lossyChars attrData,
                          bodyData := body,
                          plaintext := false } :: blocks)
          | _ => none
      | _ => none

/-- Model of `Scorpion::parse_content` (src/handlers/scorpion.rs lines
154-196): plaintext mode wraps the whole body in one paragraph block,
otherwise the block-stream loop runs. -/
def scorpionParseContent (cpControl cpWing : Nat → Char) (response : List Nat)
    (plaintext : Bool) : Option (List ScorpionBlock) :=
  if plaintext = true then
    some [{ blockType := .paragraph, attributeData := [],
            bodyData := lossyChars response, plaintext := true }]
  else
    scorpGo cpControl cpWing response.length response

/-! ## Guppy UDP reassembly (src/networking.rs, fetch_udp) -/

/-- Size of the zero-initialised receive buffer in `fetch_udp`
(src/networking.rs line 299). -/
def guppyBufSize : Nat := 16384

/-- The receive buffer after one `recv`: the datagram bytes followed by the
remaining zero fill.  Strings stand in for byte vectors; the NUL byte is the
character of code zero. -/
def padBuf (d : List Char) : List Char :=
  d ++ List.replicate (guppyBufSize - d.length) (Char.ofNat 0)

/-- Model of the receive loop of `fetch_udp` (src/networking.rs lines
297-325).  The datagram list stands for the successive `recv` results;
`data` and `acks` accumulate the reassembled body and the acknowledgment
datagrams sent.  `none` models either a panic (`unwrap` on a missing line or
newline) or the loop blocking forever because the socket never delivers
another datagram. -/
def guppyLoop : List (List Char) → List Char → List (List Char) →
    Option (List Char × List (List Char))
  | [], _, _ => none
  | d :: ds, data, acks =>
    let buf := padBuf d
    match (rustLines buf).head? with
    | none => none
    | some firstLine =>
      let serverInfo := splitSpace firstLine
      let data1 := match serverInfo.get? 1 with
        | some contentType => data ++ contentType ++ [Char.ofNat 10]
        | none => data
      match serverInfo.head? with
      | none => some (data1, acks)
      | some seq =>
        let dataLines := (rustLines buf).drop 1
        if dataLines.length = 1 then some (data1, acks)
        else
          let newbuf := buf.filter (fun b => b ≠ Char.ofNat 0)
          match splitOnce (fun c => c = '\n') newbuf with
          | none => none
          | some nb =>
            guppyLoop ds (data1 ++ nb.2) (acks ++ [seq ++ [Char.ofNat 13, Char.ofNat 10]])

/-- Entry point for the reassembly model: run the receive loop with empty
accumulators, as `fetch_udp` does. -/
def fetchUdpModel (datagrams : List (List Char)) : Option (List Char × List (List Char)) :=
  guppyLoop datagrams [] []

/-! ## Redirect resolution (src/main.rs, Breeze::update, Redirect arm) -/

/-- Model of the redirect target resolution in the Redirect arm of
`Breeze::update` (src/main.rs lines 430-436).  A target starting with "/" is
applied with `set_path`, which replaces the path and keeps scheme, host,
port and query.  For any other target the code evaluates
`current_url.join(&url).unwrap()` but discards the result, so the current
URL is returned unchanged. -/
def resolveRedirectTarget (current : Url) (target : List Char) : Url :=
  if (cs ("/")).isPrefixOf target then
    { current with path := target }
  else
    current

/-- Model of `struct NavigationHint` in src/main.rs. -/
structure NavigationHintM where
  url : List Char
  protocol : Protocol
  addToHistory : Bool
deriving DecidableEq

/-- The navigation hint queued by the Redirect arm (src/main.rs lines
437-442): the resolved URL string, the protocol of the job that produced the
redirect, and history append enabled. -/
def redirectHint (current : Url) (target : List Char) (jobProtocol : Protocol) :
    NavigationHintM :=
  { url := urlString (resolveRedirectTarget current target),
    protocol := jobProtocol,
    addToHistory := true }

/-! ## Helper lemmas -/

/-- Splitting `rustLinesGo` over a newline-free suffix: everything left is
one final line (or nothing when there is nothing at all). -/
theorem rustLinesGo_no_newline (zs : List Char) (cur : List Char) (h : '\n' ∉ zs) :
    rustLinesGo cur zs = if cur = [] ∧ zs = [] then [] else [cur.reverse ++ zs] := by
  induction zs generalizing cur with
  | nil => simp [rustLinesGo]
  | cons c rest ih =>
    have hc : c ≠ '\n' := fun hcc => h (hcc ▸ List.mem_cons_self c rest)
    have hrest : '\n' ∉ rest := fun hm => h (List.mem_cons_of_mem c hm)
    simp only [rustLinesGo, if_neg hc, ih _ hrest]
    simp [hc]

/-- Splitting `rustLinesGo` at the first newline of the remaining input. -/
theorem rustLinesGo_split (xs ys : List Char) (cur : List Char) (h : '\n' ∉ xs) :
    rustLinesGo cur (xs ++ '\n' :: ys)
      = stripTrailingCR (cur.reverse ++ xs) :: rustLinesGo [] ys := by
  induction xs generalizing cur with
  | nil => simp [rustLinesGo]
  | cons c rest ih =>
    have hc : c ≠ '\n' := fun hcc => h (hcc ▸ List.mem_cons_self c rest)
    have hrest : '\n' ∉ rest := fun hm => h (List.mem_cons_of_mem c hm)
    rw [List.cons_append, rustLinesGo, if_neg hc, ih _ hrest]
    simp [List.reverse_cons, List.append_assoc]

/-- Filtering the NUL padding of the receive buffer away leaves nothing. -/
theorem filter_replicate_nul (k : Nat) :
    (List.replicate k (Char.ofNat 0)).filter (fun b => b ≠ Char.ofNat 0) = [] := by
  induction k with
  | zero => rfl
  | succ n ih => simp [List.replicate, List.filter, ih]

/-- Only lines starting with three backticks classify as preformat toggles. -/
theorem lineType_toggle_ticks (l : List Char) (h : lineTypeFromStr l = .preformatToggle) :
    (cs ("```")).isPrefixOf l = true := by
  unfold lineTypeFromStr at h
  split_ifs at h
  all_goals simp_all

/-- A line that does not start with three backticks leaves the preformat
flag unchanged and is stamped with that flag. -/
theorem gemtextFromStr_no_toggle (l : List Char) (pf : Bool)
    (h : (cs ("```")).isPrefixOf l = false) :
    (gemtextFromStr l false pf).2 = pf ∧ (gemtextFromStr l false pf).1.preformatted = pf := by
  have hlt : lineTypeFromStr l ≠ .preformatToggle := by
    intro hc
    rw [lineType_toggle_ticks l hc] at h
    simp at h
  by_cases hnil : l = []
  · simp [gemtextFromStr, hnil]
  · simp [gemtextFromStr, hnil, if_neg hlt]

/-- Over a run of lines containing no toggle and no "." terminator, the line
loop maps each line at the current flag and keeps the flag. -/
theorem gemtextLinesGo_no_toggle (ls : List (List Char)) (pf : Bool)
    (h : ∀ l ∈ ls, (cs ("```")).isPrefixOf l = false ∧ l ≠ cs (".")) :
    gemtextLinesGo ls pf = (ls.map (fun l => (gemtextFromStr l false pf).1), pf) := by
  induction ls with
  | nil => simp [gemtextLinesGo]
  | cons l ls ih =>
    have hl := h l (List.mem_cons_self l ls)
    have hrest : ∀ x ∈ ls, (cs ("```")).isPrefixOf x = false ∧ x ≠ cs (".") :=
      fun x hx => h x (List.mem_cons_of_mem l hx)
    have hflag := (gemtextFromStr_no_toggle l pf hl.1).1
    simp only [gemtextLinesGo, if_neg hl.2, hflag, ih hrest]
    simp

/-- The gemtext line loop distributes over list concatenation, threading the
preformat flag. -/
theorem gemtextLinesGo_append (xs ys : List (List Char)) (pf : Bool) :
    gemtextLinesGo (xs ++ ys) pf
      = ((gemtextLinesGo xs pf).1 ++ (gemtextLinesGo ys (gemtextLinesGo xs pf).2).1,
         (gemtextLinesGo ys (gemtextLinesGo xs pf).2).2) := by
  induction xs generalizing pf with
  | nil => simp [gemtextLinesGo]
  | cons l xs ih =>
    by_cases hd : l = cs (".")
    · simp only [List.cons_append, gemtextLinesGo, if_pos hd, List.append_eq]
      exact ih pf
    · simp only [List.cons_append, gemtextLinesGo, if_neg hd, List.append_eq, ih]

/-- Structure of a parse around one toggle pair: the lines between the
toggles come out marked preformatted, the lines after the closing toggle do
not. -/
theorem gemtext_toggle_scope (pre mid post : List (List Char))
    (hpre : ∀ l ∈ pre, (cs ("```")).isPrefixOf l = false ∧ l ≠ cs ("."))
    (hmid : ∀ l ∈ mid, (cs ("```")).isPrefixOf l = false ∧ l ≠ cs ("."))
    (hpost : ∀ l ∈ post, (cs ("```")).isPrefixOf l = false ∧ l ≠ cs (".")) :
    (gemtextLinesGo (pre ++ cs ("```") :: (mid ++ cs ("```") :: post)) false).1
      = (gemtextLinesGo pre false).1
        ++ ({ lineType := .preformatToggle, content := [], path := none, preformatted := true }
             :: ((gemtextLinesGo mid true).1
                 ++ ({ lineType := .preformatToggle, content := [], path := none,
                       preformatted := false }
                      :: (gemtextLinesGo post false).1)))
    ∧ (∀ r ∈ (gemtextLinesGo mid true).1, r.preformatted = true)
    ∧ (∀ r ∈ (gemtextLinesGo post false).1, r.preformatted = false) := by
  have hN : gemtextLinesGo pre false
      = (pre.map (fun l => (gemtextFromStr l false false).1), false) :=
    gemtextLinesGo_no_toggle pre false hpre
  have hM : gemtextLinesGo mid true
      = (mid.map (fun l => (gemtextFromStr l false true).1), true) :=
    gemtextLinesGo_no_toggle mid true hmid
  have hP : gemtextLinesGo post false
      = (post.map (fun l => (gemtextFromStr l false false).1), false) :=
    gemtextLinesGo_no_toggle post false hpost
  have hT1 : gemtextFromStr (cs ("```")) false false
      = ({ lineType := .preformatToggle, content := [], path := none,
           preformatted := true }, true) := by
    decide
  have hT2 : gemtextFromStr (cs ("```")) false true
      = ({ lineType := .preformatToggle, content := [], path := none,
           preformatted := false }, false) := by
    decide
  have hdot : (cs ("```") : List Char) ≠ cs (".") := by decide
  refine ⟨?_, ?_, ?_⟩
  · rw [gemtextLinesGo_append, hN]
    simp only
    congr 1
    simp only [gemtextLinesGo, if_neg hdot, hT1]
    simp only [gemtextLinesGo_append, hM]
    simp only [gemtextLinesGo, if_neg hdot, hT2, hP]
  · intro r hr
    rw [hM] at hr
    simp only [List.mem_map] at hr
    obtain ⟨l, hl, hrl⟩ := hr
    rw [← hrl]
    exact (gemtextFromStr_no_toggle l true (hmid l hl).1).2
  · intro r hr
    rw [hP] at hr
    simp only [List.mem_map] at hr
    obtain ⟨l, hl, hrl⟩ := hr
    rw [← hrl]
    exact (gemtextFromStr_no_toggle l false (hpost l hl).1).2

/-- A link line whose trimmed remainder has no whitespace uses the target as
both path and display content. -/
theorem gemtext_link_no_label (s : List Char)
    (hlt : lineTypeFromStr s = .link)
    (hsp : splitOnce Char.isWhitespace (rustTrim (s.drop 2)) = none) :
    (gemtextFromStr s false false).1
      = { lineType := .link, content := rustTrim (s.drop 2),
          path := some (rustTrim (s.drop 2)), preformatted := false } := by
  have hnil : s ≠ [] := by
    intro hc
    rw [hc] at hlt
    simp [lineTypeFromStr, cs] at hlt
  have hnt : lineTypeFromStr s ≠ .preformatToggle := by
    rw [hlt]
    intro hc
    cases hc
  simp only [gemtextFromStr, hnil, hlt, linkParse, hsp]
  simp

/-- The Scorpion block loop stops immediately when at most six bytes remain,
for any fuel. -/
theorem scorpGo_short (cpControl cpWing : Nat → Char) (fuel : Nat) (rest : List Nat)
    (h : rest.length < 7) : scorpGo cpControl cpWing fuel rest = some [] := by
  cases fuel
  all_goals simp [scorpGo, h]

/-! ## Claims -/

/-- Claim C1: for every supported protocol the request body built for a URL
matches the table in spec section 4.1, with the correct secure flag, and the
port used by the fetch is the fixed per-protocol default exactly when the URL
omits an explicit port. -/
theorem build_request_matches_spec_table (u : Url) (p : Protocol) :
    buildRequest u p = specRequestTable u p
    ∧ (u.port = none → effectivePort u p = defaultPort p)
    ∧ (∀ n, u.port = some n → effectivePort u p = n) := by
  refine ⟨?_, ?_, ?_⟩
  · cases p <;> cases hq : u.query <;>
      simp [buildRequest, specRequestTable, hq, cs, List.append_assoc]
  · intro hp
    simp [effectivePort, hp]
  · intro n hp
    simp [effectivePort, hp]

/-- Witness for C1: the table match and the default port evaluated at a
concrete Gemini URL without an explicit port. -/
theorem build_request_matches_spec_table_witness :
    buildRequest ⟨cs ("gemini"), cs ("example.com"), none, cs ("/a"), none⟩ .gemini
        = specRequestTable ⟨cs ("gemini"), cs ("example.com"), none, cs ("/a"), none⟩ .gemini
    ∧ effectivePort ⟨cs ("gemini"), cs ("example.com"), none, cs ("/a"), none⟩ .gemini = 1965 :=
  ⟨(build_request_matches_spec_table ⟨cs ("gemini"), cs ("example.com"), none, cs ("/a"), none⟩
      .gemini).1,
   (build_request_matches_spec_table ⟨cs ("gemini"), cs ("example.com"), none, cs ("/a"), none⟩
      .gemini).2.1 rfl⟩

/-- Claim C2 (failing part exhibited): a redirect target beginning with "/"
replaces only the path and is re-navigated with history append enabled, but
an absolute redirect target does not replace the current URL: the code
discards the result of `join`, so the queued navigation hint points at the
unchanged current URL instead of the target. -/
theorem redirect_absolute_target_ignored :
    resolveRedirectTarget ⟨cs ("gemini"), cs ("example.com"), none, cs ("/a"), none⟩
        (cs ("/new/path"))
      = ⟨cs ("gemini"), cs ("example.com"), none, cs ("/new/path"), none⟩
    ∧ (redirectHint ⟨cs ("gemini"), cs ("example.com"), none, cs ("/a"), none⟩
        (cs ("/new/path")) .gemini).addToHistory = true
    ∧ resolveRedirectTarget ⟨cs ("gemini"), cs ("example.com"), none, cs ("/a"), none⟩
        (cs ("gemini://other.example/b"))
      = ⟨cs ("gemini"), cs ("example.com"), none, cs ("/a"), none⟩
    ∧ redirectHint ⟨cs ("gemini"), cs ("example.com"), none, cs ("/a"), none⟩
        (cs ("gemini://other.example/b")) .gemini
      = { url := urlString ⟨cs ("gemini"), cs ("example.com"), none, cs ("/a"), none⟩,
          protocol := .gemini, addToHistory := true }
    ∧ urlString ⟨cs ("gemini"), cs ("example.com"), none, cs ("/a"), none⟩
      ≠ cs ("gemini://other.example/b") := by
  decide

/-- Counterexample for C3: from the valid two-entry state with the cursor at
the tail, `remove_latest_entry` pops the tail but leaves the cursor, so the
resulting one-entry state has cursor = length and the invariant fails. -/
theorem remove_latest_entry_breaks_cursor_invariant :
    histInv { entries := [⟨⟨cs ("gemini"), cs ("a"), none, cs ("/"), none⟩, .gemini⟩,
                          ⟨⟨cs ("gemini"), cs ("b"), none, cs ("/"), none⟩, .gemini⟩],
              index := 1 }
    ∧ removeLatestEntry
        { entries := [⟨⟨cs ("gemini"), cs ("a"), none, cs ("/"), none⟩, .gemini⟩,
                      ⟨⟨cs ("gemini"), cs ("b"), none, cs ("/"), none⟩, .gemini⟩],
          index := 1 }
        = some ({ entries := [⟨⟨cs ("gemini"), cs ("a"), none, cs ("/"), none⟩, .gemini⟩],
                  index := 1 },
                ⟨⟨cs ("gemini"), cs ("b"), none, cs ("/"), none⟩, .gemini⟩)
    ∧ ¬ histInv { entries := [⟨⟨cs ("gemini"), cs ("a"), none, cs ("/"), none⟩, .gemini⟩],
                  index := 1 } := by
  decide

/-- Claim C3 as amended: `add_entry`, `back` and `forward` preserve the
cursor invariant, while `remove_latest_entry` pops the tail with the cursor
left untouched (which is what allows the invariant to break when the cursor
sat on the tail). -/
theorem history_ops_cursor_invariant (s : HistoryState) (u : Url) (p : Protocol)
    (h : histInv s) :
    histInv (addEntry s u p) ∧ histInv (histBack s).1 ∧ histInv (histForward s).1
    ∧ (∀ s2 e, removeLatestEntry s = some (s2, e) →
        s2.index = s.index ∧ s2.entries = s.entries.dropLast) := by
  unfold histInv at h
  refine ⟨?_, ?_, ?_, ?_⟩
  · cases hE : (truncEntries s).getLast? with
    | none =>
      simp only [addEntry, hE]
      simp [histInv]
    | some e =>
      have h2 : s.index + 1 < s.entries.length → (truncEntries s).length = s.index + 1 := by
        intro htr
        unfold truncEntries
        rw [if_pos htr, List.length_take]
        omega
      have h3 : ¬ (s.index + 1 < s.entries.length) → truncEntries s = s.entries := by
        intro htr
        unfold truncEntries
        rw [if_neg htr]
      by_cases hd : e.url = u
      · simp only [addEntry, hE, if_pos hd]
        unfold histInv
        intro hpos
        by_cases htr : s.index + 1 < s.entries.length
        · simp only at hpos ⊢
          rw [h2 htr]
          omega
        · simp only at hpos ⊢
          rw [h3 htr] at hpos ⊢
          exact h hpos
      · simp only [addEntry, hE, if_neg hd]
        unfold histInv
        simp
  · unfold histBack histInv
    split
    · show 0 < s.entries.length → s.index - 1 < s.entries.length
      intro hpos
      have := h hpos
      omega
    · exact h
  · unfold histForward histInv
    split
    · show 0 < s.entries.length → s.index + 1 < s.entries.length
      intro _
      assumption
    · exact h
  · intro s2 e hre
    unfold removeLatestEntry at hre
    cases hE : s.entries.getLast? with
    | none =>
      rw [hE] at hre
      exact absurd hre (by simp)
    | some x =>
      rw [hE] at hre
      simp only [Option.some.injEq, Prod.mk.injEq] at hre
      rw [← hre.1]
      exact ⟨rfl, rfl⟩

/-- Witness for C3 (amended): the preserved invariant evaluated after a push
onto a concrete valid one-entry state. -/
theorem history_ops_cursor_invariant_witness :
    histInv { entries := [⟨⟨cs ("gemini"), cs ("a"), none, cs ("/"), none⟩, .gemini⟩],
              index := 0 }
    ∧ histInv (addEntry
        { entries := [⟨⟨cs ("gemini"), cs ("a"), none, cs ("/"), none⟩, .gemini⟩], index := 0 }
        ⟨cs ("gemini"), cs ("b"), none, cs ("/"), none⟩ .gemini) :=
  ⟨by decide,
   (history_ops_cursor_invariant
      { entries := [⟨⟨cs ("gemini"), cs ("a"), none, cs ("/"), none⟩, .gemini⟩], index := 0 }
      ⟨cs ("gemini"), cs ("b"), none, cs ("/"), none⟩ .gemini (by decide)).1⟩

/-- Claim C4 (divergence exhibited): a status line with a code outside the
defined set does not yield a typed recoverable error; the decoders hit the
`unreachable!` arm, modelled here as `none` standing for a process-aborting
panic, for Gemini/Scroll, Scorpion, Spartan and Text Protocol alike. -/
theorem unknown_status_code_panics :
    geminiStatusFrom (cs ("99 oops")) = none
    ∧ parseServerResponse (cs ("99 oops\nbody")) .gemini = none
    ∧ parseServerResponse (cs ("99 oops\nbody")) .scroll = none
    ∧ scorpionStatusFrom (cs ("99 oops")) = none
    ∧ parseServerResponse (cs ("99 oops\nbody")) .scorpion = none
    ∧ spartanStatusFrom (cs ("9 oops")) = none
    ∧ parseServerResponse (cs ("9 oops\nbody")) .spartan = none
    ∧ textProtocolStatusFrom (cs ("99 oops")) = none
    ∧ parseServerResponse (cs ("99 oops\nbody")) .textProtocol = none := by
  decide

/-- Claim C5: the Gemini/Scroll status decoder maps "51 Not Found" to
NotFound("Not Found"), "10 Enter query" to a non-sensitive InputExpected, and
"30 /new/path" to TemporaryRedirect("/new/path"); the same holds for every
meta string after those codes. -/
theorem gemini_status_line_decoding :
    geminiStatusFrom (cs ("51 Not Found")) = some (.notFound (cs ("Not Found")))
    ∧ geminiStatusFrom (cs ("10 Enter query")) = some (.inputExpected (cs ("Enter query")) false)
    ∧ geminiStatusFrom (cs ("30 /new/path")) = some (.temporaryRedirect (cs ("/new/path")))
    ∧ (∀ m, geminiStatusFrom ('5' :: '1' :: ' ' :: m) = some (.notFound m))
    ∧ (∀ m, geminiStatusFrom ('1' :: '0' :: ' ' :: m) = some (.inputExpected m false))
    ∧ (∀ m, geminiStatusFrom ('3' :: '0' :: ' ' :: m) = some (.temporaryRedirect m)) :=
  ⟨rfl, rfl, rfl, fun _ => rfl, fun _ => rfl, fun _ => rfl⟩

/-- Claim C6: on any state satisfying the cursor invariant, push leaves the
cursor strictly below the length; pushing the tail URL again while the
cursor is at the tail changes nothing; pushing the tail-after-truncation URL
never grows the length; and pushing a fresh URL after `back` first truncates
everything beyond the cursor, then appends and moves the cursor to the new
tail. -/
theorem history_push_spec (s : HistoryState) (u : Url) (p : Protocol) (h : histInv s) :
    (addEntry s u p).index < (addEntry s u p).entries.length
    ∧ (∀ e, s.entries.getLast? = some e → e.url = u → s.index + 1 = s.entries.length →
        addEntry s u p = s)
    ∧ (∀ e, (truncEntries s).getLast? = some e → e.url = u →
        (addEntry s u p).entries.length ≤ s.entries.length)
    ∧ (∀ e, s.index + 1 < s.entries.length → s.entries.get? s.index = some e → e.url ≠ u →
        addEntry s u p
          = { entries := s.entries.take (s.index + 1) ++ [⟨u, p⟩], index := s.index + 1 }) := by
  unfold histInv at h
  have htrle : (truncEntries s).length ≤ s.entries.length := by
    unfold truncEntries
    split
    · rw [List.length_take]; omega
    · omega
  refine ⟨?_, ?_, ?_, ?_⟩
  · cases hE : (truncEntries s).getLast? with
    | none => simp [addEntry, hE]
    | some e =>
      by_cases hd : e.url = u
      · simp only [addEntry, hE, if_pos hd]
        show s.index < (truncEntries s).length
        by_cases htr : s.index + 1 < s.entries.length
        · unfold truncEntries
          rw [if_pos htr, List.length_take]
          omega
        · unfold truncEntries
          rw [if_neg htr]
          have hne : truncEntries s ≠ [] := by
            intro hnil
            rw [hnil] at hE
            simp at hE
          have hne2 : s.entries ≠ [] := by
            intro hnil
            apply hne
            unfold truncEntries
            rw [if_neg htr]
            exact hnil
          exact h (List.length_pos.mpr hne2)
      · simp only [addEntry, hE, if_neg hd]
        simp
  · intro e hlast hurl hidx
    have htr : ¬ (s.index + 1 < s.entries.length) := by omega
    have htrunc : truncEntries s = s.entries := by
      unfold truncEntries
      rw [if_neg htr]
    simp only [addEntry, htrunc, hlast, if_pos hurl]
  · intro e hlast hurl
    simp only [addEntry, hlast, if_pos hurl]
    exact htrle
  · intro e hidx hget hurl
    have htrunc : truncEntries s = s.entries.take (s.index + 1) := by
      unfold truncEntries
      rw [if_pos hidx]
    have hlast : (truncEntries s).getLast? = some e := by
      rw [htrunc, List.getLast?_eq_getElem?, List.length_take]
      have hmin : min (s.index + 1) s.entries.length = s.index + 1 := by omega
      rw [hmin]
      simp only [Nat.add_sub_cancel, List.getElem?_take]
      rw [if_pos (by omega)]
      rw [← List.get?_eq_getElem?]
      exact hget
    have hlast2 : (s.entries.take (s.index + 1)).getLast? = some e := by
      rw [← htrunc]
      exact hlast
    simp only [addEntry, htrunc, hlast2, if_neg hurl]
    have hlen : (s.entries.take (s.index + 1)).length = s.index + 1 := by
      rw [List.length_take]; omega
    rw [hlen]

/-- Witness for C6: the cursor bound and the consecutive-duplicate case
evaluated on a concrete one-entry state. -/
theorem history_push_spec_witness :
    histInv { entries := [⟨⟨cs ("gemini"), cs ("a"), none, cs ("/"), none⟩, .gemini⟩],
              index := 0 }
    ∧ (addEntry { entries := [⟨⟨cs ("gemini"), cs ("a"), none, cs ("/"), none⟩, .gemini⟩],
                  index := 0 }
         ⟨cs ("gemini"), cs ("a"), none, cs ("/"), none⟩ .gemini
       = { entries := [⟨⟨cs ("gemini"), cs ("a"), none, cs ("/"), none⟩, .gemini⟩],
           index := 0 }) :=
  ⟨by decide,
   (history_push_spec
      { entries := [⟨⟨cs ("gemini"), cs ("a"), none, cs ("/"), none⟩, .gemini⟩], index := 0 }
      ⟨cs ("gemini"), cs ("a"), none, cs ("/"), none⟩ .gemini (by decide)).2.1
      ⟨⟨cs ("gemini"), cs ("a"), none, cs ("/"), none⟩, .gemini⟩ (by decide) (by decide)
      (by decide)⟩

/-- Claim C7: the gemtext parser in non-plaintext mode parses
"=> /foo.gmi Foo" to a link with target /foo.gmi and label Foo; any link
line without a label token after the target uses the target as the label;
and between an opening and closing toggle line every record is marked
preformatted, while no record after the closing toggle is. -/
theorem gemtext_link_label_preformat :
    (gemtextFromStr (cs ("=> /foo.gmi Foo")) false false).1
      = { lineType := .link, content := cs ("Foo"), path := some (cs ("/foo.gmi")),
          preformatted := false }
    ∧ (∀ s, lineTypeFromStr s = .link →
        splitOnce Char.isWhitespace (rustTrim (s.drop 2)) = none →
        (gemtextFromStr s false false).1
          = { lineType := .link, content := rustTrim (s.drop 2),
              path := some (rustTrim (s.drop 2)), preformatted := false })
    ∧ (∀ pre mid post : List (List Char),
        (∀ l ∈ pre, (cs ("```")).isPrefixOf l = false ∧ l ≠ cs (".")) →
        (∀ l ∈ mid, (cs ("```")).isPrefixOf l = false ∧ l ≠ cs (".")) →
        (∀ l ∈ post, (cs ("```")).isPrefixOf l = false ∧ l ≠ cs (".")) →
        (gemtextLinesGo (pre ++ cs ("```") :: (mid ++ cs ("```") :: post)) false).1
          = (gemtextLinesGo pre false).1
            ++ ({ lineType := .preformatToggle, content := [], path := none,
                  preformatted := true }
                 :: ((gemtextLinesGo mid true).1
                     ++ ({ lineType := .preformatToggle, content := [], path := none,
                           preformatted := false }
                          :: (gemtextLinesGo post false).1)))
        ∧ (∀ r ∈ (gemtextLinesGo mid true).1, r.preformatted = true)
        ∧ (∀ r ∈ (gemtextLinesGo post false).1, r.preformatted = false)) :=
  ⟨by decide,
   gemtext_link_no_label,
   fun pre mid post hpre hmid hpost => gemtext_toggle_scope pre mid post hpre hmid hpost⟩

/-- Witness for C7: the no-label rule and the toggle scoping evaluated on
concrete lines. -/
theorem gemtext_link_label_preformat_witness :
    (gemtextFromStr (cs ("=> /bar")) false false).1
      = { lineType := .link, content := rustTrim ((cs ("=> /bar")).drop 2),
          path := some (rustTrim ((cs ("=> /bar")).drop 2)), preformatted := false }
    ∧ (∀ r ∈ (gemtextLinesGo [cs ("inside")] true).1, r.preformatted = true)
    ∧ (∀ r ∈ (gemtextLinesGo [cs ("after")] false).1, r.preformatted = false) :=
  ⟨gemtext_link_label_preformat.2.1 (cs ("=> /bar")) (by decide) (by decide),
   (gemtext_link_label_preformat.2.2 [cs ("before")] [cs ("inside")] [cs ("after")]
      (by decide) (by decide) (by decide)).2.1,
   (gemtext_link_label_preformat.2.2 [cs ("before")] [cs ("inside")] [cs ("after")]
      (by decide) (by decide) (by decide)).2.2⟩

/-- Claim C8: with any decode tables, the nine-byte stream
00 00 00 00 00 03 61 62 63 parses to exactly one paragraph block with empty
attribute data and body "abc", and any input shorter than six bytes parses
to zero blocks. -/
theorem scorpion_minimal_block_and_short_stream (cpControl cpWing : Nat → Char) :
    scorpionParseContent cpControl cpWing [0, 0, 0, 0, 0, 3, 97, 98, 99] false
      = some [{ blockType := .paragraph, attributeData := [], bodyData := cs ("abc"),
                plaintext := false }]
    ∧ ∀ input : List Nat, input.length < 6 →
        scorpionParseContent cpControl cpWing input false = some [] := by
  refine ⟨rfl, ?_⟩
  intro input hlen
  simp only [scorpionParseContent, Bool.false_eq_true, if_false]
  exact scorpGo_short cpControl cpWing input.length input (by omega)

/-- Witness for C8: the short-stream case evaluated on a concrete two-byte
input with concrete decode tables. -/
theorem scorpion_minimal_block_and_short_stream_witness :
    ([1, 2] : List Nat).length < 6
    ∧ scorpionParseContent (fun _ => 'x') (fun _ => 'x') [1, 2] false = some [] :=
  ⟨by decide,
   (scorpion_minimal_block_and_short_stream (fun _ => 'x') (fun _ => 'x')).2 [1, 2] (by decide)⟩

/-- Claim C10: the Scorpion block loop guard only checks that more than a
header remains; on a seven-byte input whose declared attribute length (or
body length) runs past the end of the input, parsing hits an out-of-range
slice, modelled as `none` standing for the panic, instead of stopping with
the blocks parsed so far (`some []`). -/
theorem scorpion_header_guard_oob_panic (cpControl cpWing : Nat → Char) :
    ([0, 255, 255, 0, 0, 0, 0] : List Nat).length = 7
    ∧ scorpionParseContent cpControl cpWing [0, 255, 255, 0, 0, 0, 0] false = none
    ∧ ([0, 0, 0, 0, 255, 255, 0] : List Nat).length = 7
    ∧ scorpionParseContent cpControl cpWing [0, 0, 0, 0, 255, 255, 0] false = none :=
  ⟨rfl, rfl, rfl, rfl⟩

/-- Claim C9: a two-datagram Guppy exchange, a first datagram whose first
line is the sequence number plus content type followed by one data chunk
(with an embedded NUL byte) and then a terminal datagram with exactly one
content line beyond its header, reassembles to the content-type line
followed by the chunk body with NUL bytes stripped, and one acknowledgment
carrying the sequence number of the non-terminal datagram is sent. -/
theorem guppy_two_datagram_reassembly :
    fetchUdpModel [cs ("1 text/gemini\nhel") ++ [Char.ofNat 0] ++ cs ("lo\n"), cs ("2\n")]
      = some (cs ("text/gemini\nhello\n"), [cs ("1\r\n")]) := by
  have hnulmem : ∀ k : Nat, '\n' ∉ List.replicate k (Char.ofNat 0) := by
    intro k hm
    have := List.eq_of_mem_replicate hm
    exact absurd this (by decide)
  have hrepne : ∀ k : Nat, 0 < k →
      ¬(([] : List Char) = [] ∧ List.replicate k (Char.ofNat 0) = []) := by
    intro k hk h
    have := congrArg List.length h.2
    simp [List.length_replicate] at this
    omega
  have hlen1 : (cs ("1 text/gemini\nhel") ++ [Char.ofNat 0] ++ cs ("lo\n")).length = 21 := by
    decide
  have hpad1 : padBuf (cs ("1 text/gemini\nhel") ++ [Char.ofNat 0] ++ cs ("lo\n"))
      = (cs ("1 text/gemini\nhel") ++ [Char.ofNat 0] ++ cs ("lo\n"))
        ++ List.replicate 16363 (Char.ofNat 0) := by
    rw [padBuf, hlen1]
    norm_num [guppyBufSize]
  have hdec1 : ∀ R : List Char,
      (cs ("1 text/gemini\nhel") ++ [Char.ofNat 0] ++ cs ("lo\n")) ++ R
        = cs ("1 text/gemini")
          ++ '\n' :: ((cs ("hel") ++ Char.ofNat 0 :: cs ("lo")) ++ '\n' :: R) :=
    fun _ => rfl
  have hsA : stripTrailingCR (cs ("1 text/gemini")) = cs ("1 text/gemini") := by decide
  have hsB : stripTrailingCR (cs ("hel") ++ Char.ofNat 0 :: cs ("lo"))
      = cs ("hel") ++ Char.ofNat 0 :: cs ("lo") := by decide
  have hlines1 : rustLines (padBuf (cs ("1 text/gemini\nhel") ++ [Char.ofNat 0] ++ cs ("lo\n")))
      = [cs ("1 text/gemini"), cs ("hel") ++ Char.ofNat 0 :: cs ("lo"),
         List.replicate 16363 (Char.ofNat 0)] := by
    rw [hpad1, hdec1, rustLines, rustLinesGo_split _ _ _ (by decide),
        rustLinesGo_split _ _ _ (by decide),
        rustLinesGo_no_newline _ _ (hnulmem 16363),
        if_neg (hrepne 16363 (by norm_num))]
    simp only [List.reverse_nil, List.nil_append]
    rw [hsA, hsB]
  have hnewbuf1 : (padBuf (cs ("1 text/gemini\nhel") ++ [Char.ofNat 0] ++ cs ("lo\n"))).filter
        (fun b => b ≠ Char.ofNat 0)
      = cs ("1 text/gemini\nhello\n") := by
    rw [hpad1, List.filter_append, filter_replicate_nul]
    decide
  have hlen2 : (cs ("2\n")).length = 2 := by decide
  have hpad2 : padBuf (cs ("2\n")) = cs ("2\n") ++ List.replicate 16382 (Char.ofNat 0) := by
    rw [padBuf, hlen2]
    norm_num [guppyBufSize]
  have hdec2 : ∀ R : List Char, cs ("2\n") ++ R = cs ("2") ++ '\n' :: R := fun _ => rfl
  have hsC : stripTrailingCR (cs ("2")) = cs ("2") := by decide
  have hlines2 : rustLines (padBuf (cs ("2\n")))
      = [cs ("2"), List.replicate 16382 (Char.ofNat 0)] := by
    rw [hpad2, hdec2, rustLines, rustLinesGo_split _ _ _ (by decide),
        rustLinesGo_no_newline _ _ (hnulmem 16382),
        if_neg (hrepne 16382 (by norm_num))]
    simp only [List.reverse_nil, List.nil_append]
    rw [hsC]
  simp only [fetchUdpModel, guppyLoop]
  rw [hlines1, hnewbuf1, hlines2]
  decide
